import Mathlib

/-!
Verification of the Shraddha Homeo Clinic patient records manager
(`src/main.py`) against its natural-language specification.

Text is modelled as `List Char`; machine integers do not occur.  The
case-number codec is the padding block of `get_patient_data`
(main.py:576-587) together with `_unpad_case_no` (main.py:764-777); the
report composer is `generate_patient_pdf` (main.py:1020-1213); the store
operations are the SQL statements of `save_patient`,
`update_patient_intake`, `save_followup` and `delete_patient_record`;
the visit query is `get_full_patient_data` (main.py:984-1009).
-/

namespace Clinic

/-- Text values (Python `str`), as lists of characters. -/
abbrev Txt := List Char

/-! ## CaseNumberCodec -/

/-- `re.sub(r'[^0-9]', '', content)` of main.py:579: keep only digits. -/
def digitsOf (s : Txt) : Txt := s.filter Char.isDigit

/-- Python `str.zfill w`: left-pad with `'0'` to width `w` (no truncation). -/
def zfill (w : Nat) (s : Txt) : Txt := List.replicate (w - s.length) '0' ++ s

/-- `self.CASE_NO_PADDING_SIZE` (main.py:160). -/
def CASE_NO_PADDING_SIZE : Nat := 5

/-- The case-number canonicalisation block of `get_patient_data`
(main.py:576-587): on a non-empty value, strip all non-digit characters
and, when digits remain, zero-pad them to width 5; otherwise keep the
value as is. -/
def encode (content : Txt) : Txt :=
  if content = [] then content
  else if digitsOf content = [] then content
  else zfill CASE_NO_PADDING_SIZE (digitsOf content)

/-- `re.match(r'0+\x7bd plus\x7d$', s)` shape of main.py:772, spelled out:
the string starts with `'0'`, has at least two characters, and consists
of digits only. -/
def isPaddedNumber : Txt → Bool
  | [] => false
  | c :: rest => c == '0' && !rest.isEmpty && rest.all Char.isDigit

/-- Python `s.lstrip('0')`. -/
def stripZeros (s : Txt) : Txt := s.dropWhile (fun c => c == '0')

/-- `_unpad_case_no` (main.py:764-777): when the value looks like a padded
number, strip the leading zeros, answering `"0"` when nothing remains;
any other value passes through unchanged. -/
def decode (s : Txt) : Txt :=
  if isPaddedNumber s then
    if stripZeros s = [] then ['0'] else stripZeros s
  else s

/-- The numeric value of a digit string (most significant digit first);
this is the spec's "integer value of the digits" used to compare the
display forms. -/
def natValue : Txt → Nat
  | [] => 0
  | c :: cs => (c.toNat - 48) * 10 ^ cs.length + natValue cs

/-- Lexicographic (codepoint, hence for ASCII byte) order on text: the
order SQLite's `ORDER BY` uses on a TEXT column with the default BINARY
collation. -/
def lexLe : Txt → Txt → Bool
  | [], _ => true
  | _ :: _, [] => false
  | a :: as, b :: bs =>
    if a.toNat < b.toNat then true
    else if b.toNat < a.toNat then false
    else lexLe as bs

/-! ## ReportComposer (`generate_patient_pdf`, main.py:1020-1213)

The story handed to `doc.build` is modelled as a list of flowables whose
text content (markup included) mirrors the Python f-strings; purely
visual attributes (column widths, `TableStyle`, colors as objects) are
carried by the style tags the source attaches to each paragraph. -/

/-- The named `ParagraphStyle`s of main.py:1044-1057. -/
inductive Style where
  | H_TITLE
  | H_SECTION
  | H_VISIT
  | BODY
  | BODY_BOLD
  | TEXT_BLOCK
deriving DecidableEq

/-- A table cell: either a raw string (the two `''` filler cells of the
preliminary table) or a `Paragraph(text, style)`. -/
inductive Cell where
  | strCell (s : Txt)
  | paraCell (text : Txt) (style : Style)
deriving DecidableEq

/-- One flowable of the ReportLab story. -/
inductive Flowable where
  | spacer (w h : Nat)
  | para (text : Txt) (style : Style)
  | table (rows : List (List Cell))
  | pageBreak
deriving DecidableEq

/-- The intake mapping (`intake_data`, a Python dict from column name to
text), as an association list. -/
abbrev Intake := List (Txt × Txt)

/-- Python `dict.get(key)`: `None` when the key is absent. -/
def dictGet : Intake → Txt → Option Txt
  | [], _ => none
  | (k, v) :: rest, key => if k = key then some v else dictGet rest key

/-- Python `dict.get(key, default)`. -/
def dictGetD (m : Intake) (k d : Txt) : Txt := (dictGet m k).getD d

/-- Python `x or default` for an optional string: the default replaces
both `None` and the empty string. -/
def pyOr : Option Txt → Txt → Txt
  | none, d => d
  | some s, d => if s = [] then d else s

/-- Python `s or default` for a string already in hand. -/
def pyOrS (s d : Txt) : Txt := if s = [] then d else s

/-- The literal placeholder token. -/
def NA : Txt := "N/A".data

/-- Python `.replace` of the newline character by `"<br/>"`, as used on
every multi-line field. -/
def replBR : Txt → Txt
  | [] => []
  | c :: cs =>
    if c = '\n' then '<' :: 'b' :: 'r' :: '/' :: '>' :: replBR cs
    else c :: replBR cs

/-- The bullet-and-underline section heading text of
`add_bulleted_text_section` (main.py:1075), with `TEAL_HEX = "#007f7f"`. -/
def bulletTitle (title : Txt) : Txt :=
  "<font color='#007f7f'>&#8226;</font> <b><u>".data ++ title ++ ":</u></b>".data

/-- `add_bulleted_text_section` (main.py:1073-1077): a section heading and
one text block whose content is `str(intake_data.get(key) or 'N/A')` with
newlines turned into `<br/>`. -/
def sectionFlowables (m : Intake) (title k : Txt) : List Flowable :=
  [Flowable.para (bulletTitle title) Style.H_SECTION,
   Flowable.para (replBR (pyOr (dictGet m k) NA)) Style.TEXT_BLOCK]

/-- The patient title line of main.py:1067, with `NAVY_HEX = "#0a2859"`. -/
def patientHeader (m : Intake) : Txt :=
  "<b>PATIENT INTAKE RECORD:</b> <font color='#0a2859'>".data
    ++ dictGetD m "name".data NA
    ++ "</font> (Case No: ".data
    ++ dictGetD m "case_no".data NA
    ++ ")".data

/-- A bold label cell, `Paragraph` with `BODY_BOLD`. -/
def boldCell (label : Txt) : Cell := Cell.paraCell label Style.BODY_BOLD

/-- A content cell, `Paragraph` with `BODY`. -/
def bodyCell (text : Txt) : Cell := Cell.paraCell text Style.BODY

/-- The cell text `str(intake_data.get(k, 'N/A') or 'N/A').replace(...)`
used by the personal-history and generalities tables. -/
def tableField (m : Intake) (k : Txt) : Txt := replBR (pyOrS (dictGetD m k NA) NA)

/-- `prelim_data` (main.py:1082-1089): defaults apply only to absent keys. -/
def prelimTable (m : Intake) : Flowable :=
  Flowable.table [
    [boldCell "<b>Date:</b>".data, bodyCell (dictGetD m "date".data NA),
     boldCell "<b>Age:</b>".data, bodyCell (dictGetD m "age".data NA)],
    [boldCell "<b>Name:</b>".data, bodyCell (dictGetD m "name".data NA),
     boldCell "<b>Gender:</b>".data, bodyCell (dictGetD m "gender".data NA)],
    [boldCell "<b>Address:</b>".data, bodyCell (dictGetD m "address".data NA),
     Cell.strCell [], Cell.strCell []]]

/-- `personal_history_data` (main.py:1107-1116). -/
def personalHistoryTable (m : Intake) : Flowable :=
  Flowable.table [
    [boldCell "<b>Habit:</b>".data, bodyCell (tableField m "habit".data),
     boldCell "<b>Diet:</b>".data, bodyCell (tableField m "diet".data)],
    [boldCell "<b>Appetite:</b>".data, bodyCell (tableField m "appetite".data),
     boldCell "<b>Bowel:</b>".data, bodyCell (tableField m "bowel".data)]]

/-- `generalities_data` (main.py:1131-1140). -/
def generalitiesTable (m : Intake) : Flowable :=
  Flowable.table [
    [boldCell "<b>Mind:</b>".data, bodyCell (tableField m "mind".data),
     boldCell "<b>Sleep:</b>".data, bodyCell (tableField m "sleep".data)],
    [boldCell "<b>Desire:</b>".data, bodyCell (tableField m "desire".data),
     boldCell "<b>Aversion:</b>".data, bodyCell (tableField m "aversion".data)]]

/-- `vitals_data` (main.py:1152-1157): like the preliminary table, the
`'N/A'` default applies only to absent keys, with no `or` fallback. -/
def vitalsTable (m : Intake) : Flowable :=
  Flowable.table [
    [boldCell "<b>Wt:</b>".data, bodyCell (dictGetD m "wt".data NA),
     boldCell "<b>B.P.:</b>".data, bodyCell (dictGetD m "bp".data NA)],
    [boldCell "<b>Pulse:</b>".data, bodyCell (dictGetD m "pulse".data NA),
     boldCell "<b>Temp:</b>".data, bodyCell (dictGetD m "temp".data NA)]]

/-- The intake part of the story (main.py:1059-1171), in emission order. -/
def intakeStory (m : Intake) : List Flowable :=
  [Flowable.spacer 1 15,
   Flowable.para (patientHeader m) Style.H_TITLE,
   Flowable.spacer 1 2,
   Flowable.para (bulletTitle "Preliminary Data".data) Style.H_SECTION,
   prelimTable m,
   Flowable.spacer 1 5]
  ++ sectionFlowables m "Chief Complaints (C/O)".data "co".data
  ++ sectionFlowables m "Onset and Duration".data "onset_duration".data
  ++ [Flowable.para (bulletTitle "Personal History".data) Style.H_SECTION,
      personalHistoryTable m,
      Flowable.spacer 1 5]
  ++ sectionFlowables m "Family History".data "family_history".data
  ++ sectionFlowables m "Past History".data "past_history".data
  ++ [Flowable.para (bulletTitle "Homoeopathic Generalities".data) Style.H_SECTION,
      generalitiesTable m,
      Flowable.spacer 1 5,
      Flowable.para (bulletTitle "Physical Examination & Initial Treatment".data)
        Style.H_SECTION,
      vitalsTable m,
      Flowable.spacer 1 5]
  ++ sectionFlowables m "Systemic Examination".data "systemic_exam".data
  ++ sectionFlowables m "Modalities (P.E.)".data "modalities_pe".data
  ++ sectionFlowables m "Diagnosis".data "diagnosis".data
  ++ sectionFlowables m "Initial Treatment".data "treatment".data

/-- One follow-up record as fetched for the PDF: the 4-tuple
`(visit_date, complaints, new_modalities, treatment)`. -/
structure Visit where
  visit_date : Txt
  complaints : Txt
  new_modalities : Txt
  treatment : Txt
deriving DecidableEq

/-- The decimal digit character for `n < 10`. -/
def digitChar (n : Nat) : Char := Char.ofNat (48 + n)

/-- Decimal rendering of a natural number, fuel-based so concrete values
reduce by `decide`. -/
def natTxtAux : Nat → Nat → Txt
  | 0, _ => []
  | fuel + 1, n =>
    if n < 10 then [digitChar n]
    else natTxtAux fuel (n / 10) ++ [digitChar (n % 10)]

/-- The decimal text of a natural number (Python `str(n)`). -/
def natTxt (n : Nat) : Txt := natTxtAux (n + 1) n

/-- The visit sub-heading text of main.py:1187: the words `"Visit "`, the
1-based index, then the date wrapped in a black font tag. -/
def visitHeadText (n : Nat) (d : Txt) : Txt :=
  "Visit ".data ++ natTxt n ++ ": <font color='black'>".data ++ d ++ "</font>".data

/-- `visit_data` (main.py:1189-1193): three labeled rows per visit. -/
def visitTable (v : Visit) : Flowable :=
  Flowable.table [
    [boldCell "<b>Complaints/Changes:</b>".data,
     bodyCell (replBR (pyOrS v.complaints NA))],
    [boldCell "<b>New Modalities:</b>".data,
     bodyCell (replBR (pyOrS v.new_modalities NA))],
    [boldCell "<b>Treatment (Remedy/Dose):</b>".data,
     bodyCell (replBR (pyOrS v.treatment NA))]]

/-- The `for i, visit in enumerate(visit_records)` loop of
main.py:1182-1205, carrying the running index. -/
def visitBlocksFrom : Nat → List Visit → List Flowable
  | _, [] => []
  | i, v :: rest =>
    Flowable.para (visitHeadText (i + 1) v.visit_date) Style.H_VISIT
      :: visitTable v
      :: Flowable.spacer 1 8
      :: visitBlocksFrom (i + 1) rest

/-- The visit-history section title of main.py:1177. -/
def visitTitle : Flowable :=
  Flowable.para "<u>VISIT HISTORY / FOLLOW-UPS</u>".data Style.H_TITLE

/-- The conditional visit-history section (main.py:1174-1205). -/
def visitSection (vs : List Visit) : List Flowable :=
  if vs = [] then []
  else Flowable.pageBreak :: visitTitle :: Flowable.spacer 1 25 :: visitBlocksFrom 0 vs

/-- The complete story handed to `doc.build` (main.py:1041-1205). -/
def story (m : Intake) (vs : List Visit) : List Flowable :=
  intakeStory m ++ visitSection vs

/-- The outer boundary of `generate_patient_pdf` (main.py:1207-1213): the
document engine is the parameter `build`; success returns `True` with no
message, an engine exception returns `False` plus the single error report
(the `messagebox.showerror` text, which embeds the cause). -/
def generate_patient_pdf (m : Intake) (vs : List Visit)
    (build : List Flowable → Except Txt Unit) : Bool × List Txt :=
  match build (story m vs) with
  | Except.ok _ => (true, [])
  | Except.error e => (false, ["Failed to build PDF content. Error: ".data ++ e])

/-- Whether `tok` is a prefix of the second list. -/
def isPre : Txt → Txt → Bool
  | [], _ => true
  | _ :: _, [] => false
  | a :: as, b :: bs => a == b && isPre as bs

/-- Whether `tok` occurs contiguously inside the second list. -/
def containsTok (tok : Txt) : Txt → Bool
  | [] => tok.isEmpty
  | c :: rest => isPre tok (c :: rest) || containsTok tok rest

/-! ## The store (SQLite tables `patients` and `visits`) -/

/-- One row of the `patients` table: the AUTOINCREMENT id and the 26
text columns written by `save_patient` / `update_patient_intake`. -/
structure PatientRow where
  id : Nat
  fields : List Txt
deriving DecidableEq

/-- One row of the `visits` table (main.py:497-506). -/
structure VisitRow where
  visit_id : Nat
  patient_id : Nat
  visit_date : Txt
  complaints : Txt
  new_modalities : Txt
  treatment : Txt
deriving DecidableEq

/-- The database state: both tables plus the AUTOINCREMENT counters. -/
structure DB where
  patients : List PatientRow
  visits : List VisitRow
  nextPatientId : Nat
  nextVisitId : Nat
deriving DecidableEq

/-- `save_patient` (main.py:614-645): `INSERT INTO patients ...`. -/
def save_patient (db : DB) (data : List Txt) : DB :=
  { db with
    patients := db.patients ++ [⟨db.nextPatientId, data⟩],
    nextPatientId := db.nextPatientId + 1 }

/-- `update_patient_intake` (main.py:647-683): `UPDATE patients SET ...
WHERE id = ?`. -/
def update_patient_intake (db : DB) (pid : Nat) (data : List Txt) : DB :=
  { db with
    patients := db.patients.map (fun p => if p.id = pid then ⟨p.id, data⟩ else p) }

/-- `save_followup` (main.py:685-715): `INSERT INTO visits ...`. -/
def save_followup (db : DB) (pid : Nat) (fd : Visit) : DB :=
  { db with
    visits := db.visits ++
      [⟨db.nextVisitId, pid, fd.visit_date, fd.complaints, fd.new_modalities,
        fd.treatment⟩],
    nextVisitId := db.nextVisitId + 1 }

/-- `delete_patient_record` (main.py:1710-1717): `DELETE FROM visits WHERE
patient_id = ?` then `DELETE FROM patients WHERE id = ?`. -/
def delete_patient_record (db : DB) (pid : Nat) : DB :=
  { db with
    visits := db.visits.filter (fun v => !(v.patient_id == pid)),
    patients := db.patients.filter (fun p => !(p.id == pid)) }

/-- The rows of `visits` belonging to one patient. -/
def visitsOf (db : DB) (pid : Nat) : List VisitRow :=
  db.visits.filter (fun v => v.patient_id == pid)

/-- The SQL `ORDER BY visit_date ASC` comparison on the TEXT column:
lexicographic order of the date strings. -/
def rowLe (a b : VisitRow) : Prop := lexLe a.visit_date b.visit_date = true

instance : DecidableRel rowLe := fun a b => by
  unfold rowLe
  infer_instance

/-- The visit query of `get_full_patient_data` (main.py:996-997):
`SELECT visit_date, complaints, new_modalities, treatment FROM visits
WHERE patient_id = ? ORDER BY visit_date ASC`. -/
def get_full_patient_visits (db : DB) (pid : Nat) : List Visit :=
  (List.insertionSort rowLe (visitsOf db pid)).map
    (fun v => ⟨v.visit_date, v.complaints, v.new_modalities, v.treatment⟩)

/-- Lexicographic date order on the composer-facing visit tuples. -/
def visitLexLe (a b : Visit) : Prop := lexLe a.visit_date b.visit_date = true

instance : DecidableRel visitLexLe := fun a b => by
  unfold visitLexLe
  infer_instance

/-- Modelled from the claim: the chronological key of a date stored in
the application's `"dd-mm-yyyy"` display form — year, then month, then
day (the UI inserts `datetime.today().strftime` of that pattern,
main.py:1617). -/
def chronoKey (d : Txt) : Nat × Nat × Nat :=
  (natValue (d.drop 6), natValue ((d.drop 3).take 2), natValue (d.take 2))

/-- Modelled from the claim: calendar (chronological) comparison of two
`"dd-mm-yyyy"` date strings. -/
def chronoLe (a b : Txt) : Bool :=
  let ka := chronoKey a
  let kb := chronoKey b
  if ka.1 < kb.1 then true
  else if kb.1 < ka.1 then false
  else if ka.2.1 < kb.2.1 then true
  else if kb.2.1 < ka.2.1 then false
  else decide (ka.2.2 ≤ kb.2.2)

/-- Calendar order on the composer-facing visit tuples. -/
def visitChronoLe (a b : Visit) : Prop := chronoLe a.visit_date b.visit_date = true

instance : DecidableRel visitChronoLe := fun a b => by
  unfold visitChronoLe
  infer_instance

/-- All pairs of stored dates order the same way lexically and
chronologically. -/
def datesAgree (l : List VisitRow) : Bool :=
  l.all (fun u => l.all (fun v =>
    lexLe u.visit_date v.visit_date == chronoLe u.visit_date v.visit_date))

/-- A concrete store exhibiting the date-order divergence: patient 1 has
a December 2023 visit and a January 2024 visit. -/
def exampleDb : DB :=
  ⟨[⟨1, []⟩],
   [⟨1, 1, "10-12-2023".data, [], [], []⟩,
    ⟨2, 1, "09-01-2024".data, [], [], []⟩],
   2, 3⟩

/-! ### Codec lemmas -/

theorem digitsOf_all (s : Txt) : (digitsOf s).all Char.isDigit = true := by
  rw [List.all_eq_true]
  intro x hx
  exact List.of_mem_filter hx

theorem all_replicate_zero (n : Nat) :
    (List.replicate n '0').all Char.isDigit = true := by
  rw [List.all_eq_true]
  intro x hx
  rw [List.eq_of_mem_replicate hx]
  decide

theorem stripZeros_replicate_append (n : Nat) (l : Txt) :
    stripZeros (List.replicate n '0' ++ l) = stripZeros l := by
  induction n with
  | zero => rfl
  | succ n ih =>
    rw [List.replicate_succ, List.cons_append]
    simp only [stripZeros, List.dropWhile] at ih ⊢
    simp [ih]

theorem zfill_eq_of_le (s : Txt) (h : 5 ≤ s.length) : zfill 5 s = s := by
  unfold zfill
  rw [Nat.sub_eq_zero_of_le h, List.replicate_zero, List.nil_append]

theorem length_zfill (s : Txt) (h : s.length ≤ 5) : (zfill 5 s).length = 5 := by
  unfold zfill
  rw [List.length_append, List.length_replicate]
  omega

theorem zfill_all_digits (s : Txt) (h : s.all Char.isDigit = true) :
    (zfill 5 s).all Char.isDigit = true := by
  unfold zfill
  rw [List.all_append, all_replicate_zero, h]
  rfl

/-- The padded form of a non-empty digit string decodes to its value with
leading zeros stripped (`"0"` when everything was a zero). -/
theorem decode_zfill (d : Txt) (hne : d ≠ []) (hall : d.all Char.isDigit = true) :
    decode (zfill 5 d) = if stripZeros d = [] then ['0'] else stripZeros d := by
  rcases Nat.lt_or_ge d.length 5 with hlt | hge
  · -- fewer than 5 digits: at least one `'0'` is prepended
    have hpos : 0 < 5 - d.length := by omega
    obtain ⟨k, hk⟩ : ∃ k, 5 - d.length = k + 1 := ⟨5 - d.length - 1, by omega⟩
    have hrep : zfill 5 d = '0' :: (List.replicate k '0' ++ d) := by
      unfold zfill
      rw [hk, List.replicate_succ, List.cons_append]
    have hrest : (List.replicate k '0' ++ d).all Char.isDigit = true := by
      rw [List.all_append, all_replicate_zero, hall]
      rfl
    have hrestne : (List.replicate k '0' ++ d) ≠ [] := by
      simp [List.append_eq_nil, hne]
    have hpad : isPaddedNumber (zfill 5 d) = true := by
      rw [hrep]
      unfold isPaddedNumber
      simp [hrest, List.isEmpty_iff, hrestne]
    have hstrip : stripZeros (zfill 5 d) = stripZeros d := by
      have : zfill 5 d = List.replicate (k + 1) '0' ++ d := by
        rw [hrep, List.replicate_succ, List.cons_append]
      rw [this, stripZeros_replicate_append]
    unfold decode
    rw [hpad, if_pos rfl, hstrip]
  · -- already at least 5 digits: zfill is the identity
    rw [zfill_eq_of_le d hge]
    obtain ⟨c, rest, hd⟩ : ∃ c rest, d = c :: rest := by
      cases d with
      | nil => exact absurd rfl hne
      | cons c rest => exact ⟨c, rest, rfl⟩
    by_cases hc : c = '0'
    · have hrestne : rest ≠ [] := by
        intro h0
        rw [hd, h0] at hge
        simp at hge
      have hrest : rest.all Char.isDigit = true := by
        rw [hd, List.all_cons] at hall
        exact (Bool.and_eq_true_iff.mp hall).2
      have hpad : isPaddedNumber d = true := by
        rw [hd, hc]
        unfold isPaddedNumber
        simp [hrest, List.isEmpty_iff, hrestne]
      unfold decode
      rw [hpad, if_pos rfl]
    · have hpad : isPaddedNumber d = false := by
        rw [hd]
        unfold isPaddedNumber
        simp [hc]
      have hstrip : stripZeros d = d := by
        rw [hd]
        unfold stripZeros
        rw [List.dropWhile_cons_of_neg (by simp [hc])]
      unfold decode
      rw [hpad]
      simp only [Bool.false_eq_true, if_false]
      rw [hstrip, if_neg (hd ▸ hne)]

theorem digitsOf_ne_nil_of (s : Txt) (h : digitsOf s ≠ []) : s ≠ [] := by
  intro h0
  rw [h0] at h
  exact h rfl

theorem encode_eq_zfill (s : Txt) (h : digitsOf s ≠ []) :
    encode s = zfill 5 (digitsOf s) := by
  unfold encode
  rw [if_neg (digitsOf_ne_nil_of s h), if_neg h]
  rfl

theorem digit_bounds (c : Char) (h : c.isDigit = true) :
    48 ≤ c.toNat ∧ c.toNat ≤ 57 := by
  simp [Char.isDigit] at h
  exact h

theorem five_le_length_zfill (s : Txt) : 5 ≤ (zfill 5 s).length := by
  unfold zfill
  rw [List.length_append, List.length_replicate]
  omega

theorem stripZeros_all (l : Txt) (p : Char → Bool) (h : l.all p = true) :
    (stripZeros l).all p = true := by
  conv at h => rw [← List.takeWhile_append_dropWhile (p := fun c => c == '0') (l := l)]
  rw [List.all_append, Bool.and_eq_true_iff] at h
  exact h.2

theorem takeWhile_zeros_eq_replicate (l : Txt) :
    l.takeWhile (fun c => c == '0') =
      List.replicate (l.takeWhile (fun c => c == '0')).length '0' := by
  rw [List.eq_replicate_iff]
  refine ⟨rfl, ?_⟩
  intro b hb
  have := List.mem_takeWhile_imp hb
  simpa using this

theorem all_digits_filter_eq (l : Txt) (h : l.all Char.isDigit = true) :
    digitsOf l = l := by
  unfold digitsOf
  rw [List.filter_eq_self]
  exact fun a ha => List.all_eq_true.mp h a ha

theorem encode_idem (s : Txt) : encode (encode s) = encode s := by
  by_cases h0 : s = []
  · rw [h0]
    rfl
  by_cases hd : digitsOf s = []
  · have hs : encode s = s := by
      unfold encode
      rw [if_neg h0, if_pos hd]
    rw [hs]
    exact hs
  · have hs : encode s = zfill 5 (digitsOf s) := encode_eq_zfill s hd
    have hall : (zfill 5 (digitsOf s)).all Char.isDigit = true :=
      zfill_all_digits _ (digitsOf_all s)
    have hlen : 5 ≤ (zfill 5 (digitsOf s)).length := five_le_length_zfill _
    have hne : zfill 5 (digitsOf s) ≠ [] := by
      intro h
      rw [h] at hlen
      simp at hlen
    have hdig : digitsOf (zfill 5 (digitsOf s)) = zfill 5 (digitsOf s) :=
      all_digits_filter_eq _ hall
    have hdne : digitsOf (zfill 5 (digitsOf s)) ≠ [] := by
      rw [hdig]
      exact hne
    rw [hs, encode_eq_zfill _ hdne, hdig, zfill_eq_of_le _ hlen]

/-! ### Claim C1: round-trip of the codec -/

/-- C1: for every input `s` containing at least one digit,
`decode (encode s)` is the decimal representation of the digit content of
`s` with leading zeros stripped, and `"0"` when every digit of `s` is
zero. -/
theorem C1_decode_encode_roundtrip (s : Txt) (h : digitsOf s ≠ []) :
    decode (encode s) =
      if stripZeros (digitsOf s) = [] then ['0'] else stripZeros (digitsOf s) := by
  rw [encode_eq_zfill s h]
  exact decode_zfill (digitsOf s) h (digitsOf_all s)

/-- C1 witness: `encode "7" = "00007"` and `decode "00007" = "7"`. -/
theorem C1_roundtrip_witness :
    encode "7".data = "00007".data ∧ decode (encode "7".data) = "7".data :=
  ⟨by decide, (C1_decode_encode_roundtrip "7".data (by decide)).trans (by decide)⟩

/-! ### Claim C3: two-sidedness of the codec -/

/-- C3 counterexample: `"0123456"` is in the image of `encode` (it is its
own encoding: seven digits, so `zfill` pads nothing), yet
`encode (decode "0123456") = "123456" ≠ "0123456" = encode "0123456"`. -/
theorem C3_counterexample :
    encode "0123456".data = "0123456".data ∧
    encode (decode (encode "0123456".data)) ≠ encode (encode "0123456".data) := by
  decide

theorem decode_of_no_digits (s : Txt) (hd : digitsOf s = []) : decode s = s := by
  cases s with
  | nil => rfl
  | cons c rest =>
    have hc : c.isDigit = false := by
      unfold digitsOf at hd
      rw [List.filter_eq_nil_iff] at hd
      simpa using hd c (by simp)
    have hc0 : (c == '0') = false := by
      rcases Bool.eq_false_iff.mp hc with _
      cases hcc : c == '0'
      · rfl
      · rw [beq_iff_eq] at hcc
        rw [hcc] at hc
        simp [Char.isDigit] at hc
    have hpad : isPaddedNumber (c :: rest) = false := by
      simp [isPaddedNumber, hc0]
    unfold decode
    rw [hpad]
    simp

/-- C3 amended: `encode (decode x) = encode x` holds for every
previously-encoded `x = encode s`, except when the digit content of `s`
is longer than the padding width 5 and begins with `'0'` (such a value is
stored verbatim but loses its leading zero on decode). -/
theorem C3_amended_two_sided (s : Txt)
    (h : ¬(5 < (digitsOf s).length ∧ (digitsOf s).take 1 = ['0'])) :
    encode (decode (encode s)) = encode (encode s) := by
  rw [encode_idem s]
  by_cases h0 : s = []
  · rw [h0]
    rfl
  by_cases hd : digitsOf s = []
  · have hs : encode s = s := by
      unfold encode
      rw [if_neg h0, if_pos hd]
    rw [hs, decode_of_no_digits s hd, hs]
  · rw [encode_eq_zfill s hd]
    rcases le_or_lt (digitsOf s).length 5 with hle | hgt
    · -- at most 5 digits: the stored form is exactly 5 digits wide
      rw [decode_zfill (digitsOf s) hd (digitsOf_all s)]
      by_cases hz : stripZeros (digitsOf s) = []
      · -- all digits were zero: both sides are "00000"
        have hrep : digitsOf s = List.replicate (digitsOf s).length '0' := by
          rw [List.eq_replicate_iff]
          refine ⟨rfl, ?_⟩
          intro b hb
          unfold stripZeros at hz
          rw [List.dropWhile_eq_nil_iff] at hz
          simpa using hz b hb
        rw [if_pos hz]
        have hlhs : encode ['0'] = List.replicate 5 '0' := by decide
        have hrhs : zfill 5 (digitsOf s) = List.replicate 5 '0' := by
          unfold zfill
          conv => lhs; rw [hrep]
          rw [← List.replicate_add]
          congr 1
          simp only [List.length_replicate]
          have : 1 ≤ (digitsOf s).length := by
            cases hds : digitsOf s with
            | nil => exact absurd hds hd
            | cons a l => simp [hds]
          omega
        rw [hlhs, hrhs]
      · -- some nonzero digit: stripping then re-padding restores the zeros
        rw [if_neg hz]
        have hall : (stripZeros (digitsOf s)).all Char.isDigit = true :=
          stripZeros_all _ _ (digitsOf_all s)
        have hfilter : digitsOf (stripZeros (digitsOf s)) = stripZeros (digitsOf s) :=
          all_digits_filter_eq _ hall
        have hdne : digitsOf (stripZeros (digitsOf s)) ≠ [] := by
          rw [hfilter]
          exact hz
        rw [encode_eq_zfill _ hdne, hfilter]
        -- zfill 5 (stripZeros d) = zfill 5 d because d is its zeros then its tail
        have hsplit : digitsOf s =
            List.replicate ((digitsOf s).takeWhile (fun c => c == '0')).length '0' ++
              stripZeros (digitsOf s) := by
          conv => lhs; rw [← List.takeWhile_append_dropWhile
            (p := fun c => c == '0') (l := digitsOf s)]
          rw [← takeWhile_zeros_eq_replicate]
          rfl
        have hlen : (digitsOf s).length =
            ((digitsOf s).takeWhile (fun c => c == '0')).length +
              (stripZeros (digitsOf s)).length := by
          conv => lhs; rw [hsplit]
          rw [List.length_append, List.length_replicate]
        unfold zfill
        conv => rhs; rw [hsplit]
        rw [← List.append_assoc, ← List.replicate_add]
        congr 2
        simp only [List.length_append, List.length_replicate]
        omega
    · -- more than 5 digits: the hypothesis rules out a leading zero
      have htake : (digitsOf s).take 1 ≠ ['0'] := fun hcontra => h ⟨hgt, hcontra⟩
      obtain ⟨c, rest, hds⟩ : ∃ c rest, digitsOf s = c :: rest := by
        cases hds : digitsOf s with
        | nil => exact absurd hds hd
        | cons a l => exact ⟨a, l, rfl⟩
      have hc0 : (c == '0') = false := by
        cases hcc : c == '0'
        · rfl
        · rw [beq_iff_eq] at hcc
          rw [hds, hcc] at htake
          simp at htake
      have hzf : zfill 5 (digitsOf s) = digitsOf s :=
        zfill_eq_of_le _ (by omega)
      have hdec : decode (digitsOf s) = digitsOf s := by
        have hpad : isPaddedNumber (digitsOf s) = false := by
          rw [hds]
          simp [isPaddedNumber, hc0]
        unfold decode
        rw [hpad]
        simp
      have hredig : digitsOf (digitsOf s) = digitsOf s :=
        all_digits_filter_eq _ (digitsOf_all s)
      have hrdne : digitsOf (digitsOf s) ≠ [] := by
        rw [hredig]
        exact hd
      rw [hzf, hdec, encode_eq_zfill _ hrdne, hredig, hzf]

/-- C3 witness: the amended statement at `s = "7"`, a value whose digit
content is within the padding width. -/
theorem C3_two_sided_witness :
    encode (decode (encode "7".data)) = encode (encode "7".data) :=
  C3_amended_two_sided "7".data (by decide)

/-! ### Claim C4: encode on mixed alphanumeric input -/

/-- C4: on an input with at least one digit and at least one non-digit
character, `encode` drops every non-digit character and zero-pads the
digit string to width 5. -/
theorem C4_mixed_alphanumeric (s : Txt) (h1 : digitsOf s ≠ [])
    (h2 : ∃ c ∈ s, c.isDigit = false) :
    encode s = zfill 5 (digitsOf s) :=
  encode_eq_zfill s h1

/-- C4 witness: `encode "T12" = "00012"` — the `"T"` prefix is discarded. -/
theorem C4_mixed_witness : encode "T12".data = "00012".data :=
  (C4_mixed_alphanumeric "T12".data (by decide) ⟨'T', by decide, by decide⟩).trans
    (by decide)

/-! ### Claim C2: lexical order of the stored form -/

theorem natValue_replicate_zero (n : Nat) (l : Txt) :
    natValue (List.replicate n '0' ++ l) = natValue l := by
  induction n with
  | zero => rfl
  | succ n ih =>
    rw [List.replicate_succ, List.cons_append]
    have hstep : natValue ('0' :: (List.replicate n '0' ++ l)) =
        ('0'.toNat - 48) * 10 ^ (List.replicate n '0' ++ l).length +
          natValue (List.replicate n '0' ++ l) := rfl
    rw [hstep, ih]
    have h0 : '0'.toNat - 48 = 0 := by decide
    rw [h0]
    simp

theorem natValue_lt (l : Txt) (h : l.all Char.isDigit = true) :
    natValue l < 10 ^ l.length := by
  induction l with
  | nil => simp [natValue]
  | cons c cs ih =>
    rw [List.all_cons, Bool.and_eq_true_iff] at h
    have hc : c.toNat - 48 ≤ 9 := by
      have := digit_bounds c h.1
      omega
    have hcs := ih h.2
    unfold natValue
    rw [List.length_cons, pow_succ, Nat.mul_comm (10 ^ cs.length) 10]
    calc (c.toNat - 48) * 10 ^ cs.length + natValue cs
        < (c.toNat - 48) * 10 ^ cs.length + 10 ^ cs.length :=
          Nat.add_lt_add_left hcs _
      _ = (c.toNat - 48 + 1) * 10 ^ cs.length := by ring
      _ ≤ 10 * 10 ^ cs.length :=
          Nat.mul_le_mul_right _ (by omega)

/-- On all-digit strings of equal length, the lexicographic order of the
text agrees with the numeric order of the values. -/
theorem lexLe_iff_natValue_le (u : Txt) :
    ∀ v : Txt, u.all Char.isDigit = true → v.all Char.isDigit = true →
      u.length = v.length →
      (lexLe u v = true ↔ natValue u ≤ natValue v) := by
  induction u with
  | nil =>
    intro v _ _ hlen
    have hv : v = [] := List.eq_nil_of_length_eq_zero hlen.symm
    subst hv
    simp [lexLe, natValue]
  | cons a as ih =>
    intro v hu hv hlen
    cases v with
    | nil => simp at hlen
    | cons b bs =>
      rw [List.all_cons, Bool.and_eq_true_iff] at hu hv
      have hlen' : as.length = bs.length := by simpa using hlen
      have ha := digit_bounds a hu.1
      have hb := digit_bounds b hv.1
      have hvas := natValue_lt as hu.2
      have hvbs := natValue_lt bs hv.2
      unfold lexLe natValue
      rw [hlen']
      by_cases h1 : a.toNat < b.toNat
      · rw [if_pos h1]
        have hkey : (a.toNat - 48) * 10 ^ bs.length + natValue as
            < (b.toNat - 48) * 10 ^ bs.length + natValue bs := by
          calc (a.toNat - 48) * 10 ^ bs.length + natValue as
              < (a.toNat - 48) * 10 ^ bs.length + 10 ^ bs.length := by
                rw [← hlen'] at *
                exact Nat.add_lt_add_left hvas _
            _ = (a.toNat - 48 + 1) * 10 ^ bs.length := by ring
            _ ≤ (b.toNat - 48) * 10 ^ bs.length :=
                Nat.mul_le_mul_right _ (by omega)
            _ ≤ (b.toNat - 48) * 10 ^ bs.length + natValue bs := Nat.le_add_right _ _
        simp [Nat.le_of_lt hkey]
      · rw [if_neg h1]
        by_cases h2 : b.toNat < a.toNat
        · rw [if_pos h2]
          have hkey : (b.toNat - 48) * 10 ^ bs.length + natValue bs
              < (a.toNat - 48) * 10 ^ bs.length + natValue as := by
            calc (b.toNat - 48) * 10 ^ bs.length + natValue bs
                < (b.toNat - 48) * 10 ^ bs.length + 10 ^ bs.length :=
                  Nat.add_lt_add_left hvbs _
              _ = (b.toNat - 48 + 1) * 10 ^ bs.length := by ring
              _ ≤ (a.toNat - 48) * 10 ^ bs.length :=
                  Nat.mul_le_mul_right _ (by omega)
              _ ≤ (a.toNat - 48) * 10 ^ bs.length + natValue as := Nat.le_add_right _ _
          simp [Nat.not_le_of_lt hkey]
        · rw [if_neg h2]
          have hab : a.toNat = b.toNat := by omega
          rw [hab, Nat.add_le_add_iff_left]
          exact ih bs hu.2 hv.2 hlen'

/-- C2 counterexample: the stored forms of `"99999"` and `"100000"` order
lexically opposite to their numeric values (the six-digit value is not
padded, so `"100000" < "99999"` as strings while `99999 < 100000` as
numbers). -/
theorem C2_counterexample :
    ¬((lexLe (encode "99999".data) (encode "100000".data) = true) ↔
      natValue (digitsOf "99999".data) ≤ natValue (digitsOf "100000".data)) := by
  decide

/-- C2 amended: when both digit contents fit inside the padding width
(at most 5 digits each), lexicographic order of the stored forms agrees
with numeric order of the digit values. -/
theorem C2_amended_order (a b : Txt) (ha : digitsOf a ≠ []) (hb : digitsOf b ≠ [])
    (hla : (digitsOf a).length ≤ 5) (hlb : (digitsOf b).length ≤ 5) :
    (lexLe (encode a) (encode b) = true ↔
      natValue (digitsOf a) ≤ natValue (digitsOf b)) := by
  rw [encode_eq_zfill a ha, encode_eq_zfill b hb]
  rw [lexLe_iff_natValue_le (zfill 5 (digitsOf a)) (zfill 5 (digitsOf b))
    (zfill_all_digits _ (digitsOf_all a)) (zfill_all_digits _ (digitsOf_all b))
    (by rw [length_zfill _ hla, length_zfill _ hlb])]
  unfold zfill
  rw [natValue_replicate_zero, natValue_replicate_zero]

/-- C2 witness: `encode "7" = "00007"` sorts before `encode "12" = "00012"`. -/
theorem C2_order_witness : lexLe (encode "7".data) (encode "12".data) = true :=
  (C2_amended_order "7".data "12".data (by decide) (by decide) (by decide)
    (by decide)).mpr (by decide)

/-! ### Claim C5: the "N/A" placeholder rule -/

/-- C5 counterexample: with the intake mapping `{"wt": ""}` the vitals
table renders the `Wt` value cell as the empty string (the table uses
`.get(key, 'N/A')`, whose default does not apply to a present-but-empty
value), so the rendered block for `wt` does not contain `"N/A"`. -/
theorem C5_counterexample :
    vitalsTable [("wt".data, [])] ∈ story [("wt".data, [])] []
    ∧ vitalsTable [("wt".data, [])] =
        Flowable.table [
          [boldCell "<b>Wt:</b>".data, bodyCell [],
           boldCell "<b>B.P.:</b>".data, bodyCell NA],
          [boldCell "<b>Pulse:</b>".data, bodyCell NA,
           boldCell "<b>Temp:</b>".data, bodyCell NA]]
    ∧ containsTok NA [] = false := by
  refine ⟨?_, by decide, by decide⟩
  simp [story, intakeStory]

/-- C5 amended: a missing key renders as the literal `"N/A"` in every
renderer (free-text sections via the `or` fallback, the `get`-default
tables, and the personal-history / generalities cells); a key mapped to
empty text renders as `"N/A"` only in the renderers that apply the `or`
fallback, while the preliminary-data and vitals cells show the empty
value itself. -/
theorem C5_amended_placeholder (m m2 : Intake) (t k k2 : Txt)
    (h1 : dictGet m k = none) (h2 : dictGet m2 k2 = some []) :
    (sectionFlowables m t k).get? 1 = some (Flowable.para NA Style.TEXT_BLOCK)
    ∧ dictGetD m k NA = NA
    ∧ tableField m k = NA
    ∧ (sectionFlowables m2 t k2).get? 1 = some (Flowable.para NA Style.TEXT_BLOCK)
    ∧ tableField m2 k2 = NA
    ∧ containsTok NA NA = true := by
  have hNA : replBR NA = NA := by decide
  have hOr : pyOrS NA NA = NA := by decide
  refine ⟨?_, ?_, ?_, ?_, ?_, by decide⟩
  · simp [sectionFlowables, h1, pyOr, hNA]
  · simp [dictGetD, h1]
  · simp [tableField, dictGetD, h1, hOr, hNA]
  · simp [sectionFlowables, h2, pyOr, hNA]
  · simp [tableField, dictGetD, h2, pyOrS, hNA]

/-- C5 witness: the amended statement at a mapping lacking `diagnosis`
and a mapping holding an empty `diagnosis`. -/
theorem C5_placeholder_witness :
    (sectionFlowables [] "Diagnosis".data "diagnosis".data).get? 1 =
      some (Flowable.para NA Style.TEXT_BLOCK) :=
  (C5_amended_placeholder [] [("diagnosis".data, [])] "Diagnosis".data
    "diagnosis".data "diagnosis".data (by decide) (by decide)).1

/-! ### Claim C6: the conditional visit section -/

theorem pageBreak_not_mem_intakeStory (m : Intake) :
    Flowable.pageBreak ∉ intakeStory m := by
  simp [intakeStory, sectionFlowables, prelimTable, personalHistoryTable,
    generalitiesTable, vitalsTable]

theorem isPre_lit_patientHeader (m : Intake) :
    isPre "<b".data (patientHeader m) = true := by
  unfold patientHeader
  have hlit : "<b>PATIENT INTAKE RECORD:</b> <font color='#0a2859'>".data
      = '<' :: 'b' :: ">PATIENT INTAKE RECORD:</b> <font color='#0a2859'>".data := by
    decide
  have hb : "<b".data = ['<', 'b'] := by decide
  rw [hlit, hb]
  simp [isPre]

theorem header_text_ne (m : Intake) :
    "<u>VISIT HISTORY / FOLLOW-UPS</u>".data ≠ patientHeader m := by
  intro h
  have hp := isPre_lit_patientHeader m
  rw [← h] at hp
  have hfalse : isPre "<b".data "<u>VISIT HISTORY / FOLLOW-UPS</u>".data = false := by
    decide
  rw [hfalse] at hp
  exact Bool.false_ne_true hp

theorem visitTitle_not_mem_intakeStory (m : Intake) :
    visitTitle ∉ intakeStory m := by
  intro hmem
  simp [intakeStory, sectionFlowables, prelimTable, personalHistoryTable,
    generalitiesTable, vitalsTable, visitTitle, header_text_ne m,
    Ne.symm (header_text_ne m)] at hmem

theorem count_pageBreak_visitBlocks (vs : List Visit) :
    ∀ i, (visitBlocksFrom i vs).count Flowable.pageBreak = 0 := by
  induction vs with
  | nil => intro i; rfl
  | cons v rest ih =>
    intro i
    simp [visitBlocksFrom, List.count_cons, ih, visitTable]

/-- C6: the story contains a forced page break immediately followed by
the visit-history title iff the visit list is non-empty; an empty visit
list yields no visit-history heading and no page break at all. -/
theorem C6_visit_section (m : Intake) (vs : List Visit) :
    ((story m vs).count Flowable.pageBreak = if vs = [] then 0 else 1)
    ∧ (visitTitle ∈ story m vs ↔ vs ≠ [])
    ∧ ((∃ pre post, story m vs = pre ++ Flowable.pageBreak :: visitTitle :: post)
        ↔ vs ≠ []) := by
  have hcount0 : (intakeStory m).count Flowable.pageBreak = 0 :=
    List.count_eq_zero.mpr (pageBreak_not_mem_intakeStory m)
  refine ⟨?_, ?_, ?_⟩
  · rw [story, List.count_append, hcount0]
    by_cases hvs : vs = []
    · simp [visitSection, hvs]
    · simp [visitSection, hvs, List.count_cons, count_pageBreak_visitBlocks,
        visitTitle]
  · constructor
    · intro hmem hvs
      rw [story, hvs] at hmem
      simp [visitSection] at hmem
      exact visitTitle_not_mem_intakeStory m hmem
    · intro hvs
      simp [story, visitSection, hvs]
  · constructor
    · rintro ⟨pre, post, heq⟩ hvs
      rw [story, hvs] at heq
      simp [visitSection] at heq
      have : Flowable.pageBreak ∈ intakeStory m := by
        rw [heq]
        simp
      exact pageBreak_not_mem_intakeStory m this
    · intro hvs
      refine ⟨intakeStory m, Flowable.spacer 1 25 :: visitBlocksFrom 0 vs, ?_⟩
      simp [story, visitSection, hvs]

/-- C6 witness: with one visit the story contains the visit-history
title, and the page-break count is one. -/
theorem C6_visit_section_witness :
    visitTitle ∈ story [] [⟨"01-01-2024".data, [], [], []⟩]
    ∧ (story [] [⟨"01-01-2024".data, [], [], []⟩]).count Flowable.pageBreak = 1 :=
  ⟨((C6_visit_section [] [⟨"01-01-2024".data, [], [], []⟩]).2.1).mpr (by decide),
   ((C6_visit_section [] [⟨"01-01-2024".data, [], [], []⟩]).1).trans (by decide)⟩

/-! ### Claim C7: visit order and labels -/

theorem isPre_append (t rest : Txt) : isPre t (t ++ rest) = true := by
  induction t with
  | nil => rfl
  | cons a as ih => simp [isPre, ih]

theorem containsTok_append (pre t rest : Txt) :
    containsTok t (pre ++ (t ++ rest)) = true := by
  induction pre with
  | nil =>
    rw [List.nil_append]
    cases heq : t ++ rest with
    | nil =>
      have ht : t = [] := (List.append_eq_nil.mp heq).1
      simp [containsTok, ht]
    | cons c r =>
      show (isPre t (c :: r) || containsTok t r) = true
      rw [← heq, isPre_append]
      rfl
  | cons p ps ih =>
    rw [List.cons_append]
    show (isPre t (p :: (ps ++ (t ++ rest))) || containsTok t (ps ++ (t ++ rest))) = true
    rw [ih]
    simp

theorem visitHead_contains_label (n : Nat) (d : Txt) :
    containsTok ("Visit ".data ++ natTxt n ++ [':']) (visitHeadText n d) = true := by
  have hsplit : visitHeadText n d =
      [] ++ (("Visit ".data ++ natTxt n ++ [':']) ++
        (" <font color='black'>".data ++ (d ++ "</font>".data))) := by
    unfold visitHeadText
    have hcolon : ": <font color='black'>".data
        = [':'] ++ " <font color='black'>".data := by decide
    rw [hcolon]
    simp [List.append_assoc]
  rw [hsplit]
  exact containsTok_append _ _ _

theorem visitHead_contains_date (n : Nat) (d : Txt) :
    containsTok d (visitHeadText n d) = true := by
  have hsplit : visitHeadText n d =
      ("Visit ".data ++ natTxt n ++ ": <font color='black'>".data) ++
        (d ++ "</font>".data) := by
    unfold visitHeadText
    simp [List.append_assoc]
  rw [hsplit]
  exact containsTok_append _ _ _

theorem visitBlocksFrom_length (vs : List Visit) :
    ∀ i, (visitBlocksFrom i vs).length = 3 * vs.length := by
  induction vs with
  | nil => intro i; rfl
  | cons v rest ih =>
    intro i
    simp [visitBlocksFrom, ih]
    ring

theorem visitBlocksFrom_get (vs : List Visit) :
    ∀ (i j : Nat) (h : j < vs.length),
      (visitBlocksFrom i vs).get? (3 * j) =
        some (Flowable.para (visitHeadText (i + j + 1) (vs.get ⟨j, h⟩).visit_date)
          Style.H_VISIT)
      ∧ (visitBlocksFrom i vs).get? (3 * j + 1) = some (visitTable (vs.get ⟨j, h⟩)) := by
  induction vs with
  | nil =>
    intro i j h
    simp at h
  | cons v rest ih =>
    intro i j h
    cases j with
    | zero =>
      constructor
      · simp [visitBlocksFrom]
      · simp [visitBlocksFrom]
    | succ j =>
      have h' : j < rest.length := by
        simpa using Nat.lt_of_succ_lt_succ h
      have harith : 3 * (j + 1) = 3 * j + 1 + 1 + 1 := by ring
      have hidx : i + (j + 1) + 1 = (i + 1) + j + 1 := by ring
      have hget : (v :: rest).get ⟨j + 1, h⟩ = rest.get ⟨j, h'⟩ := rfl
      constructor
      · rw [harith, hget, hidx]
        show (visitBlocksFrom (i + 1) rest).get? (3 * j) =
          some (Flowable.para (visitHeadText ((i + 1) + j + 1)
            (rest.get ⟨j, h'⟩).visit_date) Style.H_VISIT)
        exact (ih (i + 1) j h').1
      · rw [harith, hget]
        show (visitBlocksFrom (i + 1) rest).get? (3 * j + 1) =
          some (visitTable (rest.get ⟨j, h'⟩))
        exact (ih (i + 1) j h').2

/-- C7: for every visit list, the composer emits exactly `3 n` flowables
(one heading, one table, one spacer per visit) in input order; the block
of the `j`-th visit (0-based) starts at position `3 j` with the heading
`"Visit (j+1): ..."` carrying that visit's date, followed by its
three-row table of labeled fields. -/
theorem C7_visit_blocks (vs : List Visit) (j : Nat) (h : j < vs.length) :
    (visitBlocksFrom 0 vs).length = 3 * vs.length
    ∧ (visitBlocksFrom 0 vs).get? (3 * j) =
        some (Flowable.para (visitHeadText (j + 1) (vs.get ⟨j, h⟩).visit_date)
          Style.H_VISIT)
    ∧ (visitBlocksFrom 0 vs).get? (3 * j + 1) = some (visitTable (vs.get ⟨j, h⟩))
    ∧ containsTok ("Visit ".data ++ natTxt (j + 1) ++ [':'])
        (visitHeadText (j + 1) (vs.get ⟨j, h⟩).visit_date) = true
    ∧ containsTok (vs.get ⟨j, h⟩).visit_date
        (visitHeadText (j + 1) (vs.get ⟨j, h⟩).visit_date) = true := by
  have hg := visitBlocksFrom_get vs 0 j h
  refine ⟨visitBlocksFrom_length vs 0, ?_, hg.2,
    visitHead_contains_label _ _, visitHead_contains_date _ _⟩
  have h0 : 0 + j + 1 = j + 1 := by ring
  rw [← h0]
  exact hg.1

/-- C7 witness: a two-visit list in the order it was supplied. -/
theorem C7_visit_blocks_witness :
    (visitBlocksFrom 0 [⟨"05-03-2024".data, [], [], []⟩,
        ⟨"12-03-2024".data, [], [], []⟩]).get? 4 =
      some (visitTable ⟨"12-03-2024".data, [], [], []⟩) := by
  have hc := (C7_visit_blocks [⟨"05-03-2024".data, [], [], []⟩,
    ⟨"12-03-2024".data, [], [], []⟩] 1 (by decide)).2.2.1
  simpa using hc

/-! ### Claim C8: failure propagation of the composer -/

/-- C8: `generate_patient_pdf` reports success exactly when the document
engine completes without raising; when the engine raises, the call
returns `False` together with a single error message that embeds the
underlying cause, and makes no second attempt. -/
theorem C8_failure_propagation (m : Intake) (vs : List Visit)
    (build : List Flowable → Except Txt Unit) :
    ((generate_patient_pdf m vs build).1 = true ↔
      build (story m vs) = Except.ok ())
    ∧ (∀ e, build (story m vs) = Except.error e →
        generate_patient_pdf m vs build =
          (false, ["Failed to build PDF content. Error: ".data ++ e])) := by
  cases hb : build (story m vs) with
  | ok u =>
    cases u
    constructor
    · simp [generate_patient_pdf, hb]
    · intro e he
      simp at he
  | error e =>
    constructor
    · simp [generate_patient_pdf, hb]
    · intro e' he'
      injection he' with hee
      subst hee
      simp [generate_patient_pdf, hb]

/-- C8 witness: a build that raises with cause `"x"` yields `False` and
the one error message carrying `"x"`. -/
theorem C8_failure_witness :
    generate_patient_pdf [] [] (fun _ => Except.error ['x']) =
      (false, ["Failed to build PDF content. Error: ".data ++ ['x']]) :=
  (C8_failure_propagation [] [] (fun _ => Except.error ['x'])).2 ['x'] rfl

/-! ### Claim C9: the visit lifecycle invariant -/

theorem filter_all_holds {α : Type} (l : List α) (q : α → Bool) :
    (l.filter q).all q = true := by
  induction l with
  | nil => rfl
  | cons a l ih =>
    cases hqa : q a with
    | false => simp [List.filter_cons, hqa, ih]
    | true => simp [List.filter_cons, hqa, List.all_cons, ih]

/-- C9: no store operation rewrites an existing visit row —
`save_patient` and `update_patient_intake` leave the `visits` table
untouched, `save_followup` only appends a fresh row for its patient, and
`delete_patient_record p` removes exactly the visit rows of patient `p`
(keeping every other row unchanged and in order), so that afterwards no
row with `patient_id = p` remains. -/
theorem C9_visit_lifecycle (db : DB) (pdata : List Txt) (pid p : Nat) (fd : Visit) :
    (save_patient db pdata).visits = db.visits
    ∧ (update_patient_intake db pid pdata).visits = db.visits
    ∧ (∃ newRow, (save_followup db pid fd).visits = db.visits ++ [newRow]
        ∧ newRow.patient_id = pid)
    ∧ (delete_patient_record db p).visits =
        db.visits.filter (fun v => !(v.patient_id == p))
    ∧ (delete_patient_record db p).visits.all (fun v => !(v.patient_id == p)) = true := by
  refine ⟨rfl, rfl, ⟨_, rfl, rfl⟩, rfl, ?_⟩
  exact filter_all_holds _ _

/-! ### Claim C10: the order of the visit sequence fed to the composer -/

theorem lexLe_total (a : Txt) : ∀ b, lexLe a b = true ∨ lexLe b a = true := by
  induction a with
  | nil => intro b; left; rfl
  | cons x xs ih =>
    intro b
    cases b with
    | nil => right; rfl
    | cons y ys =>
      rcases Nat.lt_trichotomy x.toNat y.toNat with h | h | h
      · left
        simp [lexLe, h]
      · have hxy : ¬x.toNat < y.toNat := by omega
        have hyx : ¬y.toNat < x.toNat := by omega
        rcases ih ys with h1 | h1
        · left
          simp [lexLe, hxy, hyx, h1]
        · right
          simp [lexLe, hxy, hyx, h1]
      · right
        simp [lexLe, h]

theorem lexLe_trans (a : Txt) :
    ∀ b c, lexLe a b = true → lexLe b c = true → lexLe a c = true := by
  induction a with
  | nil => intro b c _ _; rfl
  | cons x xs ih =>
    intro b c hab hbc
    cases b with
    | nil => simp [lexLe] at hab
    | cons y ys =>
      cases c with
      | nil => simp [lexLe] at hbc
      | cons z zs =>
        by_cases hxy : x.toNat < y.toNat
        · by_cases hyz : y.toNat < z.toNat
          · have hxz : x.toNat < z.toNat := by omega
            simp [lexLe, hxz]
          · by_cases hzy : z.toNat < y.toNat
            · simp [lexLe, hyz, hzy] at hbc
            · have hxz : x.toNat < z.toNat := by omega
              simp [lexLe, hxz]
        · by_cases hyx : y.toNat < x.toNat
          · simp [lexLe, hxy, hyx] at hab
          · by_cases hyz : y.toNat < z.toNat
            · have hxz : x.toNat < z.toNat := by omega
              simp [lexLe, hxz]
            · by_cases hzy : z.toNat < y.toNat
              · simp [lexLe, hyz, hzy] at hbc
              · have hxz : ¬x.toNat < z.toNat := by omega
                have hzx : ¬z.toNat < x.toNat := by omega
                simp [lexLe, hxy, hyx] at hab
                simp [lexLe, hyz, hzy] at hbc
                simp [lexLe, hxz, hzx]
                exact ih ys zs hab hbc

/-- C10: the visit sequence `get_full_patient_data` hands to the composer
is sorted by ascending lexicographic order of the `visit_date` text (the
SQL `ORDER BY` on a TEXT column), not by calendar order: when the
lexicographic and chronological orders agree on every pair of the
patient's stored `dd-mm-yyyy` dates (e.g. dates within one month and
year) the output is also chronologically sorted, but in general it is
not — `exampleDb` stores a December 2023 and a January 2024 visit and
the query returns them in non-calendar order. -/
theorem C10_visit_query_order (db : DB) (p : Nat) :
    List.Sorted visitLexLe (get_full_patient_visits db p)
    ∧ (datesAgree (visitsOf db p) = true →
        List.Sorted visitChronoLe (get_full_patient_visits db p))
    ∧ ¬List.Sorted visitChronoLe (get_full_patient_visits exampleDb 1) := by
  letI : IsTotal VisitRow rowLe := ⟨fun a b => lexLe_total _ _⟩
  letI : IsTrans VisitRow rowLe :=
    ⟨fun a b c hab hbc => lexLe_trans _ _ _ hab hbc⟩
  have hsorted : List.Sorted rowLe (List.insertionSort rowLe (visitsOf db p)) :=
    List.sorted_insertionSort rowLe (visitsOf db p)
  have hperm := List.perm_insertionSort rowLe (visitsOf db p)
  refine ⟨?_, ?_, by decide⟩
  · exact List.Pairwise.map _ (fun a b hr => hr) hsorted
  · intro hagree
    rw [datesAgree, List.all_eq_true] at hagree
    have hchrono : List.Pairwise
        (fun u v : VisitRow => chronoLe u.visit_date v.visit_date = true)
        (List.insertionSort rowLe (visitsOf db p)) := by
      refine List.Pairwise.imp_of_mem (fun {u v} hu hv hr => ?_) hsorted
      have huo : u ∈ visitsOf db p := hperm.mem_iff.mp hu
      have hvo : v ∈ visitsOf db p := hperm.mem_iff.mp hv
      have hpair := List.all_eq_true.mp (hagree u huo) v hvo
      rw [beq_iff_eq] at hpair
      rw [← hpair]
      exact hr
    exact List.Pairwise.map _ (fun a b hr => hr) hchrono

/-- C10 witness: for a visit set whose dates share month and year, the
query output is chronologically sorted as well. -/
theorem C10_visit_query_witness :
    List.Sorted visitChronoLe (get_full_patient_visits
      ⟨[⟨1, []⟩],
       [⟨1, 1, "05-03-2024".data, [], [], []⟩,
        ⟨2, 1, "12-03-2024".data, [], [], []⟩], 2, 3⟩ 1) :=
  ((C10_visit_query_order
      ⟨[⟨1, []⟩],
       [⟨1, 1, "05-03-2024".data, [], [], []⟩,
        ⟨2, 1, "12-03-2024".data, [], [], []⟩], 2, 3⟩ 1).2.1) (by decide)

example : encode "7".data = "00007".data := by decide
example : decode "00007".data = "7".data := by decide
example : encode "T12".data = "00012".data := by decide
example : encode "TEST".data = "TEST".data := by decide
example : decode "00000".data = "0".data := by decide
example : encode "000".data = "00000".data := by decide
example : encode "123456".data = "123456".data := by decide
example : decode "0123456".data = "123456".data := by decide
example : lexLe "100000".data "99999".data = true := by decide

end Clinic
